import Mathlib

/-!
Verification of the PolEn dashboard core (frontend) against its specification.

The development shallowly embeds the data-alignment and streaming-state logic
of the repository:

* `addMonthsEnd`, `computeTimeTicks` — time arithmetic helpers of
  `src/frontend/components/CoreCharts.tsx` (lines 106–159);
* `decomposeBand` — the percentile-band decomposition inlined in the
  merged-data `useMemo` of `CoreCharts.tsx` (lines 231–263);
* `buildStress` / `buildGrowth` / `buildCrisis` / `buildEs95` — the
  multi-source merge engine (`CoreCharts.tsx` lines 194–323);
* `handleRun` / `handlePause` / `onMessage` … — the streaming view-controller
  transitions of `src/frontend/pages/index.tsx` (lines 239–280).

Modeling conventions:

* Calendar dates `YYYY-MM-DD` are embedded as `Date` triples of naturals.
  For the canonical zero-padded four-digit-year strings the code works with,
  JavaScript's lexicographic string comparison coincides with the
  lexicographic order `dateLt` on `(y, m, d)` used here.
* JavaScript floating-point numbers are embedded as rationals (`ℚ`); the
  arithmetic performed by the embedded code paths (addition, subtraction,
  scaling by 100) is exact in both worlds on the magnitudes involved.
* `Array.prototype.sort` (stable since ES2019) is embedded as the stable
  `List.insertionSort`, which produces the same output for a stable
  comparator-based sort.
-/

/-- A calendar date `YYYY-MM-DD`, embedded as a triple of naturals. -/
@[ext]
structure Date where
  y : Nat
  m : Nat
  d : Nat
deriving DecidableEq, Repr

/-- Strict lexicographic order on dates; for the zero-padded `YYYY-MM-DD`
strings the code manipulates, this is exactly JavaScript's `<` on strings. -/
def dateLt (a b : Date) : Prop :=
  a.y < b.y ∨ (a.y = b.y ∧ (a.m < b.m ∨ (a.m = b.m ∧ a.d < b.d)))

/-- Reflexive closure of `dateLt`: JavaScript's `<=` on date strings. -/
def dateLe (a b : Date) : Prop :=
  dateLt a b ∨ a = b

instance (a b : Date) : Decidable (dateLt a b) := by
  unfold dateLt; infer_instance

instance (a b : Date) : Decidable (dateLe a b) := by
  unfold dateLe; infer_instance

theorem dateLt_trans {a b c : Date} (h₁ : dateLt a b) (h₂ : dateLt b c) :
    dateLt a c := by
  obtain ⟨ay, am, ad⟩ := a; obtain ⟨buy, bm, bd⟩ := b; obtain ⟨cy, cm, cd⟩ := c
  simp only [dateLt] at *
  omega

theorem dateLt_irrefl (a : Date) : ¬ dateLt a a := by
  obtain ⟨ay, am, ad⟩ := a
  simp only [dateLt]
  omega

theorem dateLt_total (a b : Date) : dateLt a b ∨ dateLt b a ∨ a = b := by
  obtain ⟨ay, am, ad⟩ := a; obtain ⟨buy, bm, bd⟩ := b
  simp only [dateLt, Date.ext_iff]
  omega

theorem dateLe_of_not_lt {a b : Date} (h : ¬ dateLt a b) : dateLe b a := by
  rcases dateLt_total a b with h' | h' | h'
  · exact absurd h' h
  · exact Or.inl h'
  · exact Or.inr h'.symm

theorem dateLe_trans_lt {a b c : Date} (h₁ : dateLe a b) (h₂ : dateLt b c) :
    dateLt a c := by
  rcases h₁ with h₁ | rfl
  · exact dateLt_trans h₁ h₂
  · exact h₂

theorem dateLt_of_le_of_ne {a b : Date} (h₁ : dateLe a b) (h₂ : a ≠ b) :
    dateLt a b := by
  rcases h₁ with h₁ | rfl
  · exact h₁
  · exact absurd rfl h₂

theorem dateLe_total (a b : Date) : dateLe a b ∨ dateLe b a := by
  rcases dateLt_total a b with h | h | h
  · exact Or.inl (Or.inl h)
  · exact Or.inr (Or.inl h)
  · exact Or.inl (Or.inr h)

theorem dateLe_trans {a b c : Date} (h₁ : dateLe a b) (h₂ : dateLe b c) :
    dateLe a c := by
  rcases h₂ with h₂ | rfl
  · exact Or.inl (dateLe_trans_lt h₁ h₂)
  · exact h₁

/-- Gregorian leap-year rule, as implemented by the JavaScript `Date`
object that `addMonthsEnd` consults via `new Date(y, m, 0).getDate()`. -/
def isLeap (y : Nat) : Bool :=
  y % 4 = 0 && (y % 100 ≠ 0 || y % 400 = 0)

/-- Number of days in month `m` (1-based) of year `y`: the value of
JavaScript's `new Date(y, m, 0).getDate()` for `1 ≤ m ≤ 12` and `y ≥ 100`
(for `y < 100` the JS `Date` constructor reinterprets the year as `1900+y`;
that range is outside the system's calendar data and is not modeled). -/
def daysInMonth (y m : Nat) : Nat :=
  if m = 2 then (if isLeap y then 29 else 28)
  else if m = 4 ∨ m = 6 ∨ m = 9 ∨ m = 11 then 30
  else 31

/-- `addMonthsEnd` from `CoreCharts.tsx` lines 106–114: the end-of-month date
`n` months after the month of `dateStr`.  The source splits the string into
`[y, m]` (the day component is ignored) and computes
`total = y*12 + (m-1) + n`, `newYear = ⌊total/12⌋`, `newMonth = total%12 + 1`,
`lastDay = new Date(newYear, newMonth, 0).getDate()`. -/
def addMonthsEnd (date : Date) (n : Nat) : Date :=
  let total := date.y * 12 + (date.m - 1) + n
  let newYear := total / 12
  let newMonth := total % 12 + 1
  ⟨newYear, newMonth, daysInMonth newYear newMonth⟩

theorem dateLt_addMonthsEnd (date : Date) {n : Nat} (hn : 1 ≤ n) :
    dateLt date (addMonthsEnd date n) := by
  obtain ⟨y, m, d⟩ := date
  simp only [addMonthsEnd, dateLt]
  omega

theorem addMonthsEnd_strictMono (date : Date) {n₁ n₂ : Nat} (h : n₁ < n₂) :
    dateLt (addMonthsEnd date n₁) (addMonthsEnd date n₂) := by
  obtain ⟨y, m, d⟩ := date
  simp only [addMonthsEnd, dateLt]
  omega

/-- JavaScript's `Math.round` on a rational: round half away from zero is
`⌊q + 1/2⌋` for the non-negative and negative values alike
(`Math.round(-1.5) = -1 = ⌊-1.5 + 0.5⌋`). -/
def jsRound (q : ℚ) : ℤ :=
  ⌊q + 1 / 2⌋

/-- Whole-month difference `(cy - ly) * 12 + (cm - lm)` between a date and the
running anchor, as computed inside the tick loop of `computeTimeTicks`. -/
def monthDiff (ly lm : ℤ) (c : Date) : ℤ :=
  ((c.y : ℤ) - ly) * 12 + ((c.m : ℤ) - lm)

/-- The tick-selection loop of `computeTimeTicks` (`CoreCharts.tsx`
lines 144–152): walk the dates, keeping a date whenever it is at least
`interval` months after the previously kept one (anchored at the first
date), updating the anchor on each keep. -/
def selTicks (interval : ℤ) : ℤ → ℤ → List Date → List Date
  | _, _, [] => []
  | ly, lm, c :: ds =>
    if interval ≤ monthDiff ly lm c then
      c :: selTicks interval c.y c.m ds
    else
      selTicks interval ly lm ds

/-- `computeTimeTicks` from `CoreCharts.tsx` lines 125–159.  Given the date
column of a chart table (already extracted; the source's
`data.map(d => d.date).filter(Boolean)` drops only empty strings, which have
no counterpart in the `Date` embedding) and a target tick count, returns the
chosen axis ticks.  The `targetCount = 1` case divides by zero — JavaScript
produces `Infinity` there; the embedding assumes `targetCount ≠ 1` (the only
call sites use the default `8`). -/
def computeTimeTicks (dates : List Date) (targetCount : Nat) : List Date :=
  if dates.length ≤ targetCount then dates
  else
    match dates with
    | [] => []
    | first :: rest =>
      let lastD := (first :: rest).getLast (List.cons_ne_nil _ _)
      let totalMonths : ℤ :=
        ((lastD.y : ℤ) - first.y) * 12 + ((lastD.m : ℤ) - first.m)
      let intervalMonths : ℤ :=
        max 1 (jsRound ((totalMonths : ℚ) / ((targetCount : ℚ) - 1)))
      let ticks :=
        first :: selTicks intervalMonths (first.y : ℤ) (first.m : ℤ)
          (first :: rest)
      if ticks.getLast? = some lastD then ticks else ticks ++ [lastD]

/-- The percentile-band decomposition inlined in the merged-data `useMemo`
of `CoreCharts.tsx` (lines 237–245 for stress, 254–262 for growth):
`sim_base = p5`, `sim_outer_lo = p25 - p5`, `sim_iqr = p75 - p25`,
`sim_outer_hi = p95 - p75` (the median `p50` is drawn separately and does not
enter the decomposition).  No clamping of any kind is applied. -/
def decomposeBand (p5 p25 _p50 p75 p95 : ℚ) : ℚ × ℚ × ℚ × ℚ :=
  (p5, p25 - p5, p75 - p25, p95 - p75)

/-- A five-percentile fan band of a simulation step (`stress_fan` /
`growth_fan` in the `StepData` interface of `CoreCharts.tsx`). -/
structure Fan where
  p5 : ℚ
  p25 : ℚ
  p50 : ℚ
  p75 : ℚ
  p95 : ℚ
deriving DecidableEq, Repr

/-- One live-simulation step message (`StepData` in `CoreCharts.tsx`
lines 32–42).  The `spaghetti` and `start_date` fields are not consulted by
the merged-data computation and are omitted from the embedding. -/
structure StepData where
  step : Nat
  H : Nat
  stress_fan : Fan
  growth_fan : Fan
  crisis_prob : ℚ
  es95_stress : ℚ
  initial_mu : Option (List ℚ)
deriving DecidableEq, Repr

/-- Historical time series (`TimeseriesData` in `CoreCharts.tsx` lines
44–56), restricted to the fields the merged-data computation reads:
`dates`, `latent_factors.stress`, the optional `latent_factors.growth`, and
`crisis_probability`.  Out-of-range indexing (`xs[i] ?? null`) is embedded as
`List.get?`. -/
structure TimeseriesData where
  dates : List Date
  latent_stress : List ℚ
  latent_growth : Option (List ℚ)
  crisis_probability : List ℚ
deriving DecidableEq, Repr

/-- One policy-agent trajectory (`AgentResult` in `CoreCharts.tsx` lines
58–75), restricted to the fields the merge engine reads.  `stress_fan` is a
per-step list of records from which only `p5` is consulted; an entry's inner
`Option` is that record's possibly-absent `p5` value.  Note that the merge
loop never consults the `error` field. -/
structure AgentResult where
  agent : String
  stress_path : List ℚ
  growth_path : List ℚ
  crisis_prob_path : List ℚ
  stress_fan : Option (List (Option ℚ))
deriving DecidableEq, Repr

/-- One row of a merged chart table, keyed by `date`.  Fields that are
absent in the JavaScript object literal and fields set to `null` are both
embedded as `none` (the distinction is not observable by the renderer for
these tables).  Dynamic `agent_<id>` fields live in the `agents`
association list, in insertion order like JS object keys. -/
structure Row where
  date : Date
  hist : Option ℚ := none
  sim_p50 : Option ℚ := none
  sim_base : Option ℚ := none
  sim_outer_lo : Option ℚ := none
  sim_iqr : Option ℚ := none
  sim_outer_hi : Option ℚ := none
  sim : Option ℚ := none
  isSim : Bool := false
  agents : List (String × Option ℚ) := []
deriving DecidableEq, Repr

/-- JS dynamic property write `obj[key] = val` on the agent fields:
overwrite an existing key in place, otherwise append the key. -/
def setAssoc : List (String × Option ℚ) → String → Option ℚ →
    List (String × Option ℚ)
  | [], k, v => [(k, v)]
  | (k', v') :: rest, k, v =>
    if k' = k then (k, v) :: rest else (k', v') :: setAssoc rest k v

/-- Set the dynamic `agent_<id>` field of a row (`pt[field] = val`). -/
def setField (r : Row) (k : String) (v : Option ℚ) : Row :=
  { r with agents := setAssoc r.agents k v }

/-- `mergeInto` from `CoreCharts.tsx` lines 284–291: find the first row with
this date and set the field on it, or push a fresh `{date, isSim: true}` row
at the end of the table. -/
def mergeInto : List Row → Date → String → Option ℚ → List Row
  | [], dt, k, v => [{ date := dt, isSim := true, agents := [(k, v)] }]
  | r :: rs, dt, k, v =>
    if r.date = dt then setField r k v :: rs
    else r :: mergeInto rs dt k v

/-- `initialMu` `useMemo` of `CoreCharts.tsx` lines 185–190: the
`initial_mu` of the first accumulated step, when present. -/
def initialMu (sims : List StepData) : Option (List ℚ) :=
  match sims with
  | [] => none
  | s :: _ => s.initial_mu

/-- The stress deviation reference `s0 = initialMu ? initialMu[0] : 0`
(`CoreCharts.tsx` line 224).  The backend always sends at least three
components in `initial_mu`; for a hypothetical shorter vector JS would
produce `NaN` where this embedding defaults to `0` (no claim depends on that
range). -/
def muRef0 (mu : Option (List ℚ)) : ℚ :=
  match mu with
  | none => 0
  | some l => l.getD 0 0

/-- The growth deviation reference `g0 = initialMu ? (initialMu[2] ?? 0) : 0`
(`CoreCharts.tsx` line 225). -/
def muRef2 (mu : Option (List ℚ)) : ℚ :=
  match mu with
  | none => 0
  | some l => l.getD 2 0

/-- `hasOverlay = simActive || agentsActive` (`CoreCharts.tsx` lines
180–182): a live run has accumulated steps, or agent results are present and
non-empty. -/
def hasOverlay (sims : List StepData) (ag : Option (List AgentResult)) :
    Bool :=
  !sims.isEmpty ||
    (match ag with
     | none => false
     | some l => !l.isEmpty)

/-- The history trim of `CoreCharts.tsx` line 209: a historical row is kept
unless an overlay is active, an anchor date is selected, and the row's date
lies strictly after the anchor. -/
def keepHist (ov : Bool) (sd : Option Date) (dt : Date) : Bool :=
  match sd with
  | none => true
  | some s => !(ov && decide (dateLt s dt))

/-- First index of the history display window:
`start = Math.max(0, totalDates - historyMonths)` (`CoreCharts.tsx`
line 204; `Nat` subtraction already clamps at zero). -/
def histStart (ts : TimeseriesData) (historyMonths : Nat) : Nat :=
  ts.dates.length - historyMonths

/-- Indices `start, …, totalDates - 1` traversed by the history loop. -/
def histIdx (ts : TimeseriesData) (historyMonths : Nat) : List Nat :=
  List.range' (histStart ts historyMonths)
    (ts.dates.length - histStart ts historyMonths)

/-- The history rows of one table (`CoreCharts.tsx` lines 202–220),
parameterized by the per-table row constructor `mk` applied to the date and
the running index. -/
def histRowsBy (mk : Date → Nat → Row) (ts : TimeseriesData)
    (historyMonths : Nat) (ov : Bool) (sd : Option Date) : List Row :=
  (histIdx ts historyMonths).filterMap fun i =>
    match ts.dates.get? i with
    | none => none
    | some dt => if keepHist ov sd dt then some (mk dt i) else none

/-- History row of the stress table: `{date, hist: latent_factors.stress[i]}`. -/
def mkStressHist (ts : TimeseriesData) (dt : Date) (i : Nat) : Row :=
  { date := dt, hist := ts.latent_stress.get? i }

/-- History row of the growth table: `{date, hist: latent_factors.growth?.[i]}`. -/
def mkGrowthHist (ts : TimeseriesData) (dt : Date) (i : Nat) : Row :=
  { date := dt, hist := ts.latent_growth.bind (·.get? i) }

/-- History row of the crisis table: the probability is scaled to percent. -/
def mkCrisisHist (ts : TimeseriesData) (dt : Date) (i : Nat) : Row :=
  { date := dt, hist := (ts.crisis_probability.get? i).map (· * 100) }

/-- History row of the ES95 table: only the date is emitted. -/
def mkEs95Hist (_ts : TimeseriesData) (dt : Date) (_i : Nat) : Row :=
  { date := dt }

/-- Simulation overlay row of the stress table (`CoreCharts.tsx` lines
231–246): shift every percentile by the deviation reference when deviation
mode is on, then store the stacked band decomposition. -/
def simStressRow (sd : Date) (s0 : ℚ) (dev : Bool) (st : StepData) : Row :=
  let q5 := st.stress_fan.p5 - (if dev then s0 else 0)
  let q25 := st.stress_fan.p25 - (if dev then s0 else 0)
  let q50 := st.stress_fan.p50 - (if dev then s0 else 0)
  let q75 := st.stress_fan.p75 - (if dev then s0 else 0)
  let q95 := st.stress_fan.p95 - (if dev then s0 else 0)
  let seg := decomposeBand q5 q25 q50 q75 q95
  { date := addMonthsEnd sd st.step
    sim_p50 := some q50
    sim_base := some seg.1
    sim_outer_lo := some seg.2.1
    sim_iqr := some seg.2.2.1
    sim_outer_hi := some seg.2.2.2
    isSim := true }

/-- Simulation overlay row of the growth table (`CoreCharts.tsx` lines
248–263), identical in shape to the stress row but driven by `growth_fan`
and the growth reference. -/
def simGrowthRow (sd : Date) (g0 : ℚ) (dev : Bool) (st : StepData) : Row :=
  let q5 := st.growth_fan.p5 - (if dev then g0 else 0)
  let q25 := st.growth_fan.p25 - (if dev then g0 else 0)
  let q50 := st.growth_fan.p50 - (if dev then g0 else 0)
  let q75 := st.growth_fan.p75 - (if dev then g0 else 0)
  let q95 := st.growth_fan.p95 - (if dev then g0 else 0)
  let seg := decomposeBand q5 q25 q50 q75 q95
  { date := addMonthsEnd sd st.step
    sim_p50 := some q50
    sim_base := some seg.1
    sim_outer_lo := some seg.2.1
    sim_iqr := some seg.2.2.1
    sim_outer_hi := some seg.2.2.2
    isSim := true }

/-- Simulation overlay row of the crisis table (`CoreCharts.tsx` line 265). -/
def simCrisisRow (sd : Date) (st : StepData) : Row :=
  { date := addMonthsEnd sd st.step
    sim := some (st.crisis_prob * 100)
    isSim := true }

/-- Simulation overlay row of the ES95 table (`CoreCharts.tsx` line 266). -/
def simEs95Row (sd : Date) (st : StepData) : Row :=
  { date := addMonthsEnd sd st.step
    sim := some st.es95_stress
    isSim := true }

/-- One agent's inner step loop (`CoreCharts.tsx` lines 279–305) applied to
a single table: for each step index `k < H`, date the value at
`addMonthsEnd(selectedDate, k + 1)` and merge it into the table.
`valueAt k = none` means the source performs no merge for that step on this
table (the ES95 guard `agent.stress_fan && agent.stress_fan[step]`);
`valueAt k = some v` merges the possibly-null value `v`. -/
def applyAgentSteps (sd : Date) (key : String)
    (valueAt : Nat → Option (Option ℚ)) (H : Nat) (table : List Row) :
    List Row :=
  (List.range H).foldl
    (fun acc k =>
      match valueAt k with
      | none => acc
      | some v => mergeInto acc (addMonthsEnd sd (k + 1)) key v)
    table

/-- The agent overlay loop over all agents (`CoreCharts.tsx` lines 274–306)
for one table, parameterized by the per-agent value extractor.  An agent
with an empty (or absent) `stress_path` is skipped; `H` is always the length
of `stress_path`, for every table. -/
def applyAgents (sd : Date) (valueOf : AgentResult → Nat → Option (Option ℚ))
    (ags : List AgentResult) (table : List Row) : List Row :=
  ags.foldl
    (fun acc a =>
      if a.stress_path.isEmpty then acc
      else
        applyAgentSteps sd ("agent_" ++ a.agent) (valueOf a)
          a.stress_path.length acc)
    table

/-- Stress value of agent `a` at step `k`: `agent.stress_path[step] ?? null`. -/
def agentStressVal (a : AgentResult) (k : Nat) : Option (Option ℚ) :=
  some (a.stress_path.get? k)

/-- Growth value of agent `a` at step `k`: `agent.growth_path[step] ?? null`. -/
def agentGrowthVal (a : AgentResult) (k : Nat) : Option (Option ℚ) :=
  some (a.growth_path.get? k)

/-- Crisis value of agent `a` at step `k`, scaled to percent when present. -/
def agentCrisisVal (a : AgentResult) (k : Nat) : Option (Option ℚ) :=
  some ((a.crisis_prob_path.get? k).map (· * 100))

/-- ES95 value of agent `a` at step `k`: merged only when
`agent.stress_fan[step]` exists, taking that record's `p5 ?? null`. -/
def agentEs95Val (a : AgentResult) (k : Nat) : Option (Option ℚ) :=
  match a.stress_fan with
  | none => none
  | some fans =>
    match fans.get? k with
    | none => none
    | some p5v => some p5v

/-- The agent overlay guard (`CoreCharts.tsx` line 271:
`agentsActive && selectedDate && agentResults`), evaluated with JS
short-circuiting: no anchor date or no (non-empty) agent results means the
table passes through unchanged. -/
def agentOverlay (sd : Option Date)
    (valueOf : AgentResult → Nat → Option (Option ℚ))
    (ag : Option (List AgentResult)) (table : List Row) : List Row :=
  match sd with
  | none => table
  | some s =>
    match ag with
    | none => table
    | some l => if l.isEmpty then table else applyAgents s valueOf l table

/-- Row comparison used by the final `sort` (`CoreCharts.tsx` line 310):
`a.date < b.date ? -1 : a.date > b.date ? 1 : 0` on date strings. -/
def rowLe (a b : Row) : Prop :=
  dateLe a.date b.date

instance (a b : Row) : Decidable (rowLe a b) := by
  unfold rowLe; infer_instance

instance : IsTotal Row rowLe :=
  ⟨fun a b => dateLe_total a.date b.date⟩

instance : IsTrans Row rowLe :=
  ⟨fun _ _ _ => dateLe_trans⟩

/-- The final date sort of a merged table (`CoreCharts.tsx` lines 309–314).
JS `Array.prototype.sort` is stable; `insertionSort` is a stable sort and
therefore computes the same result for this comparator. -/
def sortRows (l : List Row) : List Row :=
  l.insertionSort rowLe

/-- The sim-overlay part of a table, common guard of `CoreCharts.tsx`
line 223 (`simActive && selectedDate`). -/
def simOverlay (sd : Option Date) (sims : List StepData)
    (mk : Date → StepData → Row) : List Row :=
  match sd with
  | none => []
  | some s => if sims.isEmpty then [] else sims.map (mk s)

/-- The merged stress table of the merged-data `useMemo`
(`CoreCharts.tsx` lines 194–323): history rows (trimmed right of the anchor
when an overlay is active), then the live-simulation fan rows, then the
agent values merged in by date, finally sorted by date. -/
def buildStress (ts : Option TimeseriesData) (sims : List StepData)
    (sd : Option Date) (historyMonths : Nat)
    (ag : Option (List AgentResult)) (dev : Bool) : List Row :=
  let ov := hasOverlay sims ag
  let hist :=
    match ts with
    | none => []
    | some t => histRowsBy (mkStressHist t) t historyMonths ov sd
  let simPart :=
    simOverlay sd sims fun s => simStressRow s (muRef0 (initialMu sims)) dev
  sortRows (agentOverlay sd agentStressVal ag (hist ++ simPart))

/-- The merged growth table (same pipeline as `buildStress`, driven by the
growth series, `growth_fan`, and the growth deviation reference). -/
def buildGrowth (ts : Option TimeseriesData) (sims : List StepData)
    (sd : Option Date) (historyMonths : Nat)
    (ag : Option (List AgentResult)) (dev : Bool) : List Row :=
  let ov := hasOverlay sims ag
  let hist :=
    match ts with
    | none => []
    | some t => histRowsBy (mkGrowthHist t) t historyMonths ov sd
  let simPart :=
    simOverlay sd sims fun s => simGrowthRow s (muRef2 (initialMu sims)) dev
  sortRows (agentOverlay sd agentGrowthVal ag (hist ++ simPart))

/-- The merged crisis-probability table. -/
def buildCrisis (ts : Option TimeseriesData) (sims : List StepData)
    (sd : Option Date) (historyMonths : Nat)
    (ag : Option (List AgentResult)) (_dev : Bool) : List Row :=
  let ov := hasOverlay sims ag
  let hist :=
    match ts with
    | none => []
    | some t => histRowsBy (mkCrisisHist t) t historyMonths ov sd
  let simPart := simOverlay sd sims fun s => simCrisisRow s
  sortRows (agentOverlay sd agentCrisisVal ag (hist ++ simPart))

/-- The merged expected-shortfall table. -/
def buildEs95 (ts : Option TimeseriesData) (sims : List StepData)
    (sd : Option Date) (historyMonths : Nat)
    (ag : Option (List AgentResult)) (_dev : Bool) : List Row :=
  let ov := hasOverlay sims ag
  let hist :=
    match ts with
    | none => []
    | some t => histRowsBy (mkEs95Hist t) t historyMonths ov sd
  let simPart := simOverlay sd sims fun s => simEs95Row s
  sortRows (agentOverlay sd agentEs95Val ag (hist ++ simPart))

/-!
The streaming view controller of `src/frontend/pages/index.tsx`
(lines 239–280).  The host runtime is single-threaded and event-driven
(one callback at a time), so the controller is embedded as a transition
system on an explicit state: each React state setter batch performed by one
handler is one atomic transition.

A created `WebSocket` is identified by a fresh numeric id.  Its `onmessage`
handler stays attached until that socket is closed; `handleRun` never closes
the previous socket (it only overwrites `wsRef.current`), so a superseded
socket keeps delivering.  `openSessions` is the list of created-and-not-yet-
closed sockets, i.e. those whose late messages are still delivered.
-/

/-- An inbound message on the simulation channel, as destructured by
`ws.onmessage` (`index.tsx` lines 259–264).  `step = 0` encodes a missing or
zero (JS-falsy) `step` field; messages carrying a step also carry the full
`StepData` payload. -/
structure SimMsg where
  error : Option String := none
  done : Bool := false
  step : Nat := 0
  payload : StepData
deriving DecidableEq, Repr

/-- The controller state relevant to the streaming lifecycle:
`simulationData`, `isRunning`, `error`, the current socket handle `wsRef`,
the set of sockets whose handlers can still fire, and a fresh-id counter. -/
structure ViewState where
  simulationData : List SimMsg
  isRunning : Bool
  error : Option String
  wsRef : Option Nat
  openSessions : List Nat
  nextId : Nat
deriving DecidableEq, Repr

/-- The controller state on page load: nothing accumulated, no socket. -/
def initView : ViewState :=
  { simulationData := []
    isRunning := false
    error := none
    wsRef := none
    openSessions := []
    nextId := 0 }

/-- `handleRun` (`index.tsx` lines 239–267): clear the step list, set
`isRunning`, clear the error banner, create a new `WebSocket` and point
`wsRef` at it.  The previously active socket — if any — is NOT closed and
remains in `openSessions`. -/
def handleRun (s : ViewState) : ViewState :=
  { s with
    simulationData := []
    isRunning := true
    error := none
    wsRef := some s.nextId
    openSessions := s.openSessions ++ [s.nextId]
    nextId := s.nextId + 1 }

/-- `handlePause` (`index.tsx` lines 269–272): close the current socket when
there is one, null the handle, stop running. -/
def handlePause (s : ViewState) : ViewState :=
  match s.wsRef with
  | some i =>
    { s with
      openSessions := s.openSessions.erase i
      wsRef := none
      isRunning := false }
  | none => { s with isRunning := false }

/-- The `ws.onmessage` handler (`index.tsx` lines 259–264), fired when
socket `sid` delivers `msg`.  A message on a closed socket is not delivered;
a message on ANY open socket runs the handler body, which checks neither the
socket's identity against `wsRef` nor the monotonicity of `step`:
`error` stops the run; `done && !step` stops the run; any truthy `step` is
appended to `simulationData`. -/
def onMessage (s : ViewState) (sid : Nat) (msg : SimMsg) : ViewState :=
  if sid ∈ s.openSessions then
    match msg.error with
    | some e => { s with error := some e, isRunning := false }
    | none =>
      if msg.done && decide (msg.step = 0) then { s with isRunning := false }
      else if msg.step ≠ 0 then
        { s with simulationData := s.simulationData ++ [msg] }
      else s
  else s

/-- The `ws.onerror` handler (`index.tsx` line 265). -/
def onSocketError (s : ViewState) (sid : Nat) : ViewState :=
  if sid ∈ s.openSessions then
    { s with isRunning := false, error := some "WebSocket connection failed" }
  else s

/-- The `ws.onclose` handler (`index.tsx` line 266): note that it nulls
`wsRef` unconditionally, whichever socket closed. -/
def onSocketClose (s : ViewState) (sid : Nat) : ViewState :=
  if sid ∈ s.openSessions then
    { s with
      isRunning := false
      wsRef := none
      openSessions := s.openSessions.erase sid }
  else s

/-- A concrete minimal step payload used in the concrete lifecycle traces. -/
def stepPayload (k : Nat) : StepData :=
  { step := k
    H := 24
    stress_fan := ⟨0, 0, 0, 0, 0⟩
    growth_fan := ⟨0, 0, 0, 0, 0⟩
    crisis_prob := 0
    es95_stress := 0
    initial_mu := none }

/-- A concrete inbound step-`k` message used in the concrete lifecycle
traces. -/
def msgStep (k : Nat) : SimMsg :=
  { step := k, payload := stepPayload k }

/-!
Theorems for the claims follow, one per claim of the specification,
with counterexamples and witnesses where the status requires them.
-/

/-- C5 — counterexample.  The claim asserts that `decomposeBand` returns
four non-negative values with
`base + lowerOuter + interQuartile + upperOuter = p95 − p5`.  At the valid
(weakly ordered) band `(-1, -1, -1, -1, -1)` the code returns
`base = -1 < 0` and the four segments sum to `-1`, while `p95 − p5 = 0`. -/
theorem c5_decomposeBand_claim_counterexample :
    (decomposeBand (-1) (-1) (-1) (-1) (-1)).1 = (-1 : ℚ) ∧
    ¬ (0 : ℚ) ≤ (decomposeBand (-1) (-1) (-1) (-1) (-1)).1 ∧
    (decomposeBand (-1) (-1) (-1) (-1) (-1)).1 +
        (decomposeBand (-1) (-1) (-1) (-1) (-1)).2.1 +
        (decomposeBand (-1) (-1) (-1) (-1) (-1)).2.2.1 +
        (decomposeBand (-1) (-1) (-1) (-1) (-1)).2.2.2 ≠
      ((-1 : ℚ) - (-1)) := by
  norm_num [decomposeBand]

/-- C5 — amended.  For every ordered band `p5 ≤ p25 ≤ p50 ≤ p75 ≤ p95` the
decomposition returns `base = p5` (of arbitrary sign) and three non-negative
segments; stacking from the axis baseline reconstructs the band exactly
(partial sums `p5, p25, p75, p95`), the four values sum to `p95` (not
`p95 − p5`), and the three segments above the base sum to `p95 − p5`. -/
theorem c5_decomposeBand_spec (p5 p25 p50 p75 p95 : ℚ) (h1 : p5 ≤ p25)
    (h2 : p25 ≤ p50) (h3 : p50 ≤ p75) (h4 : p75 ≤ p95) :
    (decomposeBand p5 p25 p50 p75 p95).1 = p5 ∧
    0 ≤ (decomposeBand p5 p25 p50 p75 p95).2.1 ∧
    0 ≤ (decomposeBand p5 p25 p50 p75 p95).2.2.1 ∧
    0 ≤ (decomposeBand p5 p25 p50 p75 p95).2.2.2 ∧
    (decomposeBand p5 p25 p50 p75 p95).1 +
        (decomposeBand p5 p25 p50 p75 p95).2.1 = p25 ∧
    (decomposeBand p5 p25 p50 p75 p95).1 +
        (decomposeBand p5 p25 p50 p75 p95).2.1 +
        (decomposeBand p5 p25 p50 p75 p95).2.2.1 = p75 ∧
    (decomposeBand p5 p25 p50 p75 p95).1 +
        (decomposeBand p5 p25 p50 p75 p95).2.1 +
        (decomposeBand p5 p25 p50 p75 p95).2.2.1 +
        (decomposeBand p5 p25 p50 p75 p95).2.2.2 = p95 ∧
    (decomposeBand p5 p25 p50 p75 p95).2.1 +
        (decomposeBand p5 p25 p50 p75 p95).2.2.1 +
        (decomposeBand p5 p25 p50 p75 p95).2.2.2 = p95 - p5 := by
  dsimp only [decomposeBand]
  refine ⟨rfl, by linarith, by linarith, by linarith, by ring, by ring,
    by ring, by ring⟩

/-- C5 — witness for the amended theorem at the band `(0, 1, 2, 3, 4)`. -/
theorem c5_decomposeBand_spec_witness :
    (0 : ℚ) ≤ 1 ∧
    ((decomposeBand 0 1 2 3 4).1 = (0 : ℚ) ∧
      0 ≤ (decomposeBand 0 1 2 3 4).2.1 ∧
      0 ≤ (decomposeBand 0 1 2 3 4).2.2.1 ∧
      0 ≤ (decomposeBand 0 1 2 3 4).2.2.2 ∧
      (decomposeBand 0 1 2 3 4).1 + (decomposeBand 0 1 2 3 4).2.1 = 1 ∧
      (decomposeBand 0 1 2 3 4).1 + (decomposeBand 0 1 2 3 4).2.1 +
          (decomposeBand 0 1 2 3 4).2.2.1 = 3 ∧
      (decomposeBand 0 1 2 3 4).1 + (decomposeBand 0 1 2 3 4).2.1 +
          (decomposeBand 0 1 2 3 4).2.2.1 +
          (decomposeBand 0 1 2 3 4).2.2.2 = 4 ∧
      (decomposeBand 0 1 2 3 4).2.1 + (decomposeBand 0 1 2 3 4).2.2.1 +
          (decomposeBand 0 1 2 3 4).2.2.2 = (4 : ℚ) - 0) :=
  ⟨by norm_num,
    c5_decomposeBand_spec 0 1 2 3 4 (by norm_num) (by norm_num) (by norm_num)
      (by norm_num)⟩

/-- C6 — counterexample.  The claim asserts that on an ordering violation
the offending segment magnitudes are clamped to zero, so every returned
segment is non-negative.  At `(1, 0, 0, 0, 0)` (where `p25 < p5`) the code
returns `lowerOuter = -1 < 0`: no clamping exists in the code. -/
theorem c6_decomposeBand_clamp_counterexample :
    (decomposeBand 1 0 0 0 0).2.1 = (-1 : ℚ) ∧
    ¬ (0 : ℚ) ≤ (decomposeBand 1 0 0 0 0).2.1 := by
  norm_num [decomposeBand]

/-- C6 — amended.  The decomposition performs no clamping: its segments are
the raw signed differences, so stacking always reconstructs
`p25`, `p75`, `p95` exactly, and whenever the upstream ordering is violated
the offending segment is strictly negative rather than floored at zero. -/
theorem c6_decomposeBand_no_clamp (p5 p25 p50 p75 p95 : ℚ) :
    (decomposeBand p5 p25 p50 p75 p95).1 = p5 ∧
    (decomposeBand p5 p25 p50 p75 p95).1 +
        (decomposeBand p5 p25 p50 p75 p95).2.1 = p25 ∧
    (decomposeBand p5 p25 p50 p75 p95).1 +
        (decomposeBand p5 p25 p50 p75 p95).2.1 +
        (decomposeBand p5 p25 p50 p75 p95).2.2.1 = p75 ∧
    (decomposeBand p5 p25 p50 p75 p95).1 +
        (decomposeBand p5 p25 p50 p75 p95).2.1 +
        (decomposeBand p5 p25 p50 p75 p95).2.2.1 +
        (decomposeBand p5 p25 p50 p75 p95).2.2.2 = p95 ∧
    (p25 < p5 → (decomposeBand p5 p25 p50 p75 p95).2.1 < 0) ∧
    (p75 < p25 → (decomposeBand p5 p25 p50 p75 p95).2.2.1 < 0) ∧
    (p95 < p75 → (decomposeBand p5 p25 p50 p75 p95).2.2.2 < 0) := by
  dsimp only [decomposeBand]
  refine ⟨rfl, by ring, by ring, by ring, ?_, ?_, ?_⟩ <;>
    intro h <;> linarith

/-- C6 — witness: instantiating the amended theorem at `(1, 0, 0, 0, 0)`
exhibits the strictly negative (unclamped) segment. -/
theorem c6_decomposeBand_no_clamp_witness :
    (0 : ℚ) < 1 ∧ (decomposeBand 1 0 0 0 0).2.1 < 0 :=
  ⟨by norm_num,
    (c6_decomposeBand_no_clamp 1 0 0 0 0).2.2.2.2.1 (by norm_num)⟩

/-- C7 — confirmed.  For every date with a well-formed month field and every
`n ≥ 0`, `addMonthsEnd` returns a date whose month is in `1..12`, whose
whole-month count since year zero is exactly the input's count plus `n`
(the year-adjusted "`(month + n) mod 12`" of the claim, stated both as the
exact count equation and as the congruence), and whose day is the last
valid day of the target month — so a day like Jan 31 never overflows. -/
theorem c7_addMonthsEnd_spec (dt : Date) (n : Nat) (h1 : 1 ≤ dt.m)
    (h2 : dt.m ≤ 12) :
    1 ≤ (addMonthsEnd dt n).m ∧ (addMonthsEnd dt n).m ≤ 12 ∧
    (addMonthsEnd dt n).y * 12 + ((addMonthsEnd dt n).m - 1) =
      dt.y * 12 + (dt.m - 1) + n ∧
    (addMonthsEnd dt n).m % 12 = (dt.m + n) % 12 ∧
    (addMonthsEnd dt n).d =
      daysInMonth (addMonthsEnd dt n).y (addMonthsEnd dt n).m := by
  obtain ⟨y, m, d⟩ := dt
  refine ⟨?_, ?_, ?_, ?_, rfl⟩ <;> dsimp only [addMonthsEnd] at * <;> omega

/-- C7 — witness: Jan 31, 2024 plus one month is Feb 29, 2024 (leap year),
instantiating the end-of-month specification. -/
theorem c7_addMonthsEnd_spec_witness :
    addMonthsEnd ⟨2024, 1, 31⟩ 1 = ⟨2024, 2, 29⟩ ∧
    (1 ≤ (addMonthsEnd ⟨2024, 1, 31⟩ 1).m ∧
      (addMonthsEnd ⟨2024, 1, 31⟩ 1).m ≤ 12 ∧
      (addMonthsEnd ⟨2024, 1, 31⟩ 1).y * 12 +
          ((addMonthsEnd ⟨2024, 1, 31⟩ 1).m - 1) =
        2024 * 12 + (1 - 1) + 1 ∧
      (addMonthsEnd ⟨2024, 1, 31⟩ 1).m % 12 = (1 + 1) % 12 ∧
      (addMonthsEnd ⟨2024, 1, 31⟩ 1).d =
        daysInMonth (addMonthsEnd ⟨2024, 1, 31⟩ 1).y
          (addMonthsEnd ⟨2024, 1, 31⟩ 1).m) :=
  ⟨by decide, c7_addMonthsEnd_spec ⟨2024, 1, 31⟩ 1 (by decide) (by decide)⟩

/-- C2 — the code contradicts the claim (session isolation).  Failing
trace: `handleRun` opens session 0; session 0 delivers step 1; `handleRun`
opens session 1 (state B, step list cleared, `wsRef = 1`); a late message on
superseded session 0 is then delivered.  Because `handleRun` never closes
the old socket and `onmessage` never checks session identity, the stale
message is appended to B's step list, mutating current state. -/
theorem c2_stale_session_mutates_state :
    ViewState.wsRef (handleRun (onMessage (handleRun initView) 0
      (msgStep 1))) = some 1 ∧
    ViewState.simulationData (handleRun (onMessage (handleRun initView) 0
      (msgStep 1))) = [] ∧
    ViewState.simulationData (onMessage (handleRun (onMessage
      (handleRun initView) 0 (msgStep 1))) 0 (msgStep 2)) = [msgStep 2] := by
  decide

/-- C3 — the code contradicts the claim (run is a guarded singleton).
`handleRun` has no "already running" guard and never terminates the active
session: after a second `handleRun` while session 0 is running, both
sockets 0 and 1 are open (so two sessions can deliver concurrently), and
the second call was not a no-op. -/
theorem c3_run_not_guarded :
    (handleRun initView).isRunning = true ∧
    (handleRun (handleRun initView)).openSessions = [0, 1] ∧
    (handleRun (handleRun initView)).wsRef = some 1 ∧
    handleRun (handleRun initView) ≠ handleRun initView := by
  decide

/-- C4 — the code contradicts the claim (monotonic `stepIndex`
validation).  Failing input: deliver step 2 before step 1 on the active
session.  `onmessage` performs no `stepIndex` check, so the out-of-order
message is appended, and after step 1 arrives the list is
`[step 2, step 1]` instead of the claimed `[step 1]`. -/
theorem c4_out_of_order_step_appended :
    ViewState.simulationData (onMessage (handleRun initView) 0
      (msgStep 2)) = [msgStep 2] ∧
    ViewState.simulationData (onMessage (onMessage (handleRun initView) 0
      (msgStep 2)) 0 (msgStep 1)) = [msgStep 2, msgStep 1] := by
  decide

/-- C9 — confirmed.  With no anchor date selected (`selectedDate = null`),
every one of the four merged tables equals the table built from the
historical series alone: the accumulated steps and the agent results —
whatever they contain — contribute no rows and no fields. -/
theorem c9_no_anchor_history_only (ts : Option TimeseriesData)
    (sims : List StepData) (hm : Nat) (ag : Option (List AgentResult))
    (dev : Bool) :
    buildStress ts sims none hm ag dev = buildStress ts [] none hm none dev ∧
    buildGrowth ts sims none hm ag dev = buildGrowth ts [] none hm none dev ∧
    buildCrisis ts sims none hm ag dev = buildCrisis ts [] none hm none dev ∧
    buildEs95 ts sims none hm ag dev = buildEs95 ts [] none hm none dev := by
  refine ⟨?_, ?_, ?_, ?_⟩ <;> cases ts <;> rfl

/-- C10 — confirmed.  When the step list is empty or its first step carries
no `initial_mu`, the deviation references default to `0`, so deviation mode
changes nothing: each merged table is identical with the mode on and off
(every simulation band value equals its absolute value). -/
theorem c10_missing_initial_mu_zero_reference (ts : Option TimeseriesData)
    (sims : List StepData) (sd : Option Date) (hm : Nat)
    (ag : Option (List AgentResult)) (h : initialMu sims = none) :
    muRef0 (initialMu sims) = 0 ∧ muRef2 (initialMu sims) = 0 ∧
    buildStress ts sims sd hm ag true = buildStress ts sims sd hm ag false ∧
    buildGrowth ts sims sd hm ag true = buildGrowth ts sims sd hm ag false ∧
    buildCrisis ts sims sd hm ag true = buildCrisis ts sims sd hm ag false ∧
    buildEs95 ts sims sd hm ag true = buildEs95 ts sims sd hm ag false := by
  have h0 : muRef0 (initialMu sims) = 0 := by rw [h]; rfl
  have h2 : muRef2 (initialMu sims) = 0 := by rw [h]; rfl
  refine ⟨h0, h2, ?_, ?_, rfl, rfl⟩
  · simp only [buildStress, h0]; rfl
  · simp only [buildGrowth, h2]; rfl

theorem selTicks_sublist (iv : ℤ) :
    ∀ (ds : List Date) (ly lm : ℤ), (selTicks iv ly lm ds).Sublist ds := by
  intro ds
  induction ds with
  | nil => intro ly lm; simp [selTicks]
  | cons d ds ih =>
    intro ly lm
    simp only [selTicks]
    split
    · exact (ih d.y d.m).cons₂ d
    · exact (ih ly lm).cons d

theorem selTicks_cons_self (iv : ℤ) (hiv : 1 ≤ iv) (first : Date)
    (rest : List Date) :
    selTicks iv first.y first.m (first :: rest) =
      selTicks iv first.y first.m rest := by
  simp only [selTicks, monthDiff]
  rw [if_neg]
  omega

theorem sublist_of_concat_of_not_mem {α : Type} {l' l : List α} {a : α}
    (h : l'.Sublist (l ++ [a])) (ha : a ∉ l') : l'.Sublist l := by
  rcases List.sublist_append_iff.1 h with ⟨l₁, l₂, rfl, h₁, h₂⟩
  rcases List.sublist_singleton.1 h₂ with rfl | rfl
  · simpa using h₁
  · exact absurd (List.mem_append_right l₁ (List.mem_singleton_self a)) ha

theorem getLast?_of_mem_of_concat {α : Type} {l' l : List α} {a : α}
    (h : l'.Sublist (l ++ [a])) (hnl : a ∉ l) (hm : a ∈ l') :
    l'.getLast? = some a := by
  rcases List.sublist_append_iff.1 h with ⟨l₁, l₂, rfl, h₁, h₂⟩
  rcases List.sublist_singleton.1 h₂ with rfl | rfl
  · rw [List.append_nil] at hm
    exact absurd (h₁.mem hm) hnl
  · exact List.getLast?_concat l₁

/-- The assembled output of the long branch of `computeTimeTicks`: the
selected ticks prefixed with the first date, with the last date appended
when the loop did not already end on it. -/
theorem ticks_out_spec (first : Date) (rest : List Date) (iv : ℤ)
    (hiv : 1 ≤ iv) (hPW : (first :: rest).Pairwise dateLt) (hne : rest ≠ [])
    (lastD : Date) (hlast : lastD = (first :: rest).getLast (List.cons_ne_nil _ _)) :
    List.Sublist
      (if (first :: selTicks iv first.y first.m (first :: rest)).getLast? =
          some lastD
        then first :: selTicks iv first.y first.m (first :: rest)
        else (first :: selTicks iv first.y first.m (first :: rest)) ++
          [lastD])
      (first :: rest) ∧
    (if (first :: selTicks iv first.y first.m (first :: rest)).getLast? =
          some lastD
      then first :: selTicks iv first.y first.m (first :: rest)
      else (first :: selTicks iv first.y first.m (first :: rest)) ++
        [lastD]).length ≤ (first :: rest).length ∧
    first ∈
      (if (first :: selTicks iv first.y first.m (first :: rest)).getLast? =
          some lastD
        then first :: selTicks iv first.y first.m (first :: rest)
        else (first :: selTicks iv first.y first.m (first :: rest)) ++
          [lastD]) ∧
    lastD ∈
      (if (first :: selTicks iv first.y first.m (first :: rest)).getLast? =
          some lastD
        then first :: selTicks iv first.y first.m (first :: rest)
        else (first :: selTicks iv first.y first.m (first :: rest)) ++
          [lastD]) := by
  have hnodup : (first :: rest).Nodup :=
    hPW.imp fun hab => fun he => absurd (he ▸ hab) (dateLt_irrefl _)
  have hlast' : lastD = rest.getLast hne := by
    rw [hlast, List.getLast_cons hne]
  have hd : rest.dropLast ++ [lastD] = rest := by
    rw [hlast']; exact List.dropLast_append_getLast hne
  have hlast_mem : lastD ∈ rest := by
    rw [hlast']; exact List.getLast_mem hne
  have hfirst_ne : lastD ≠ first := by
    intro he
    exact (List.nodup_cons.1 hnodup).1 (he ▸ hlast_mem)
  have hnot_drop : lastD ∉ rest.dropLast := by
    have hnr : rest.Nodup := (List.nodup_cons.1 hnodup).2
    rw [← hd] at hnr
    intro hmem
    exact List.disjoint_of_nodup_append hnr hmem
      (List.mem_singleton_self lastD)
  have hs : (selTicks iv first.y first.m (first :: rest)).Sublist rest := by
    rw [selTicks_cons_self iv hiv]
    exact selTicks_sublist iv rest _ _
  have hs' : (selTicks iv first.y first.m (first :: rest)).Sublist
      (rest.dropLast ++ [lastD]) := by rw [hd]; exact hs
  by_cases hif :
      (first :: selTicks iv first.y first.m (first :: rest)).getLast? =
        some lastD
  · rw [if_pos hif]
    refine ⟨hs.cons₂ first, by simpa using Nat.succ_le_succ hs.length_le,
      List.mem_cons_self _ _, ?_⟩
    rcases List.mem_getLast?_eq_getLast
      (show lastD ∈
        (first :: selTicks iv first.y first.m (first :: rest)).getLast? by
          rw [hif]; rfl) with ⟨hne', he⟩
    have hmem := List.getLast_mem hne'
    rwa [← he] at hmem
  · rw [if_neg hif]
    have hnotin : lastD ∉ selTicks iv first.y first.m (first :: rest) := by
      intro hmem
      apply hif
      have hcons : (first :: selTicks iv first.y first.m
          (first :: rest)).Sublist ((first :: rest.dropLast) ++ [lastD]) := by
        simpa using hs'.cons₂ first
      have hnl : lastD ∉ first :: rest.dropLast := by
        intro hmem'
        rcases List.mem_cons.1 hmem' with he | hmem''
        · exact hfirst_ne he
        · exact hnot_drop hmem''
      exact getLast?_of_mem_of_concat hcons hnl (List.mem_cons_of_mem _ hmem)
    have hdrop : (selTicks iv first.y first.m (first :: rest)).Sublist
        rest.dropLast :=
      sublist_of_concat_of_not_mem hs' hnotin
    constructor
    · have : (((first :: selTicks iv first.y first.m (first :: rest)) ++
          [lastD]).Sublist (first :: (rest.dropLast ++ [lastD]))) := by
        simpa using (hdrop.append (List.Sublist.refl [lastD])).cons₂ first
      rwa [hd] at this
    refine ⟨?_, List.mem_cons_self _ _,
      List.mem_append_right _ (List.mem_singleton_self lastD)⟩
    have h1 : (selTicks iv first.y first.m (first :: rest)).length ≤
        rest.dropLast.length := hdrop.length_le
    have h2 : rest.dropLast.length + 1 = rest.length := by
      rw [← hd]; simp
    simp only [List.length_append, List.length_cons, List.length_nil]
    omega

/-- C8 — confirmed.  For every strictly sorted (hence duplicate-free) date
list and any target count `≥ 2` (the call sites use the default `8`), the
tick chooser is deterministic, its output is a subsequence of the input that
never exceeds the input length, it contains the first and last input date,
and it returns the input unchanged whenever the input is no longer than the
target count. -/
theorem c8_computeTimeTicks_spec (dates : List Date) (targetCount : Nat)
    (hsorted : dates.Pairwise dateLt) (ht : 2 ≤ targetCount) :
    computeTimeTicks dates targetCount = computeTimeTicks dates targetCount ∧
    (computeTimeTicks dates targetCount).Sublist dates ∧
    (computeTimeTicks dates targetCount).length ≤ dates.length ∧
    (∀ f, dates.head? = some f → f ∈ computeTimeTicks dates targetCount) ∧
    (∀ l, dates.getLast? = some l → l ∈ computeTimeTicks dates targetCount) ∧
    (dates.length ≤ targetCount → computeTimeTicks dates targetCount = dates)
    := by
  by_cases hlen : dates.length ≤ targetCount
  · have heq : computeTimeTicks dates targetCount = dates := by
      unfold computeTimeTicks; rw [if_pos hlen]
    rw [heq]
    exact ⟨rfl, List.Sublist.refl _, Nat.le_refl _,
      fun f hf => List.mem_of_mem_head? (by rw [hf]; rfl),
      fun l hl => by
        rcases List.mem_getLast?_eq_getLast (by rw [hl]; rfl) with ⟨h, he⟩
        exact he ▸ List.getLast_mem h,
      fun _ => rfl⟩
  · cases dates with
    | nil => exact absurd (Nat.zero_le _) hlen
    | cons first rest =>
      have hne : rest ≠ [] := by
        intro h
        subst h
        simp only [List.length_cons, List.length_nil] at hlen
        omega
      have heq : computeTimeTicks (first :: rest) targetCount =
          (if (first :: selTicks
                (max 1 (jsRound
                  ((((((first :: rest).getLast
                        (List.cons_ne_nil _ _)).y : ℤ) - first.y) * 12 +
                      ((((first :: rest).getLast
                        (List.cons_ne_nil _ _)).m : ℤ) - first.m) : ℤ) /
                    ((targetCount : ℚ) - 1))))
                first.y first.m (first :: rest)).getLast? =
              some ((first :: rest).getLast (List.cons_ne_nil _ _))
            then first :: selTicks
                (max 1 (jsRound
                  ((((((first :: rest).getLast
                        (List.cons_ne_nil _ _)).y : ℤ) - first.y) * 12 +
                      ((((first :: rest).getLast
                        (List.cons_ne_nil _ _)).m : ℤ) - first.m) : ℤ) /
                    ((targetCount : ℚ) - 1))))
                first.y first.m (first :: rest)
            else (first :: selTicks
                (max 1 (jsRound
                  ((((((first :: rest).getLast
                        (List.cons_ne_nil _ _)).y : ℤ) - first.y) * 12 +
                      ((((first :: rest).getLast
                        (List.cons_ne_nil _ _)).m : ℤ) - first.m) : ℤ) /
                    ((targetCount : ℚ) - 1))))
                first.y first.m (first :: rest)) ++
              [(first :: rest).getLast (List.cons_ne_nil _ _)]) := by
        unfold computeTimeTicks
        rw [if_neg hlen]
      rw [heq]
      obtain ⟨Hsub, Hlen, Hfirst, Hlast⟩ :=
        ticks_out_spec first rest _ (le_max_left _ _) hsorted hne
          ((first :: rest).getLast (List.cons_ne_nil _ _)) rfl
      refine ⟨rfl, Hsub, Hlen, ?_, ?_, fun hcon => absurd hcon hlen⟩
      · intro f hf
        simp only [List.head?_cons, Option.some.injEq] at hf
        exact hf ▸ Hfirst
      · intro l hl
        rw [List.getLast?_eq_getLast _ (List.cons_ne_nil _ _),
          Option.some.injEq] at hl
        exact hl ▸ Hlast

/-- Strict row order: strictly increasing dates (the merge invariant). -/
def rowLt (a b : Row) : Prop :=
  dateLt a.date b.date

instance (a b : Row) : Decidable (rowLt a b) := by
  unfold rowLt; infer_instance

/-- All rows of a table carry pairwise distinct dates. -/
def datesNodup (l : List Row) : Prop :=
  (l.map Row.date).Pairwise (· ≠ ·)

instance (l : List Row) : Decidable (datesNodup l) := by
  unfold datesNodup; infer_instance

theorem dates_get?_lt {l : List Date} (h : l.Pairwise dateLt) {i j : Nat}
    (hij : i < j) {a b : Date} (ha : l.get? i = some a)
    (hb : l.get? j = some b) : dateLt a b := by
  rcases List.get?_eq_some.1 ha with ⟨hi, rfl⟩
  rcases List.get?_eq_some.1 hb with ⟨hj, rfl⟩
  exact List.pairwise_iff_get.1 h ⟨i, hi⟩ ⟨j, hj⟩ hij

theorem histRowsBy_pairwise (mk : Date → Nat → Row)
    (hmk : ∀ dt i, (mk dt i).date = dt) (ts : TimeseriesData)
    (hm : Nat) (ov : Bool) (sd : Option Date)
    (hPW : ts.dates.Pairwise dateLt) :
    (histRowsBy mk ts hm ov sd).Pairwise rowLt := by
  unfold histRowsBy histIdx
  refine List.Pairwise.filterMap _ ?_ (List.pairwise_lt_range' _ _)
  intro i j hij r hr r' hr'
  rcases hg : ts.dates.get? i with _ | di <;> rw [hg] at hr
  · simp at hr
  rcases hg' : ts.dates.get? j with _ | dj <;> rw [hg'] at hr'
  · simp at hr'
  simp only [Option.mem_def] at hr hr'
  split at hr
  case isTrue =>
    split at hr'
    case isTrue =>
      cases hr; cases hr'
      show dateLt (mk di i).date (mk dj j).date
      rw [hmk, hmk]
      exact dates_get?_lt hPW hij hg hg'
    case isFalse => cases hr'
  case isFalse => cases hr

theorem histRowsBy_mem_not_after (mk : Date → Nat → Row)
    (hmk : ∀ dt i, (mk dt i).date = dt) (ts : TimeseriesData)
    (hm : Nat) (s : Date) (r : Row)
    (hr : r ∈ histRowsBy mk ts hm true (some s)) : ¬ dateLt s r.date := by
  unfold histRowsBy at hr
  rcases List.mem_filterMap.1 hr with ⟨i, _hi, hf⟩
  rcases hg : ts.dates.get? i with _ | di <;> rw [hg] at hf
  · cases hf
  simp only [keepHist] at hf
  split at hf
  case isTrue hkeep =>
    cases hf
    rw [hmk]
    simpa using hkeep
  case isFalse => cases hf

theorem simRows_pairwise (s : Date) (g : StepData → Row)
    (hg : ∀ st, (g st).date = addMonthsEnd s st.step) (sims : List StepData)
    (hst : sims.Pairwise (fun a b => a.step < b.step)) :
    (sims.map g).Pairwise rowLt := by
  refine List.Pairwise.map g ?_ hst
  intro a b hab
  show dateLt (g a).date (g b).date
  rw [hg, hg]
  exact addMonthsEnd_strictMono s hab

theorem simRows_mem_after (s : Date) (g : StepData → Row)
    (hg : ∀ st, (g st).date = addMonthsEnd s st.step) (sims : List StepData)
    (hpos : ∀ st ∈ sims, 1 ≤ st.step) (r : Row) (hr : r ∈ sims.map g) :
    dateLt s r.date := by
  rcases List.mem_map.1 hr with ⟨st, hst, rfl⟩
  rw [hg]
  exact dateLt_addMonthsEnd s (hpos st hst)

theorem simOverlay_some_of_ne (s : Date) {sims : List StepData}
    (h : sims ≠ []) (g : Date → StepData → Row) :
    simOverlay (some s) sims g = sims.map (g s) := by
  show (if sims.isEmpty then [] else sims.map (g s)) = sims.map (g s)
  rw [if_neg]
  simpa [List.isEmpty_iff] using h

/-- The rows fed into the final sort of every merged table: possibly-trimmed
history (given abstractly, with its order and anchor-trim facts) followed by
the live-simulation rows. -/
theorem pre_sort_pairwise (hist : List Row) (hh : hist.Pairwise rowLt)
    (sims : List StepData) (hst : sims.Pairwise (fun a b => a.step < b.step))
    (hpos : ∀ st ∈ sims, 1 ≤ st.step) (sd : Option Date)
    (hbound : ∀ s, sd = some s → sims ≠ [] →
      ∀ r ∈ hist, ¬ dateLt s r.date)
    (g : Date → StepData → Row)
    (hg : ∀ s st, (g s st).date = addMonthsEnd s st.step) :
    (hist ++ simOverlay sd sims g).Pairwise rowLt := by
  rcases sd with _ | s
  · simpa [simOverlay] using hh
  by_cases hsim : sims = []
  · subst hsim
    simpa [simOverlay] using hh
  rw [simOverlay_some_of_ne s hsim, List.pairwise_append]
  refine ⟨hh, simRows_pairwise s (g s) (hg s) sims hst, ?_⟩
  intro r hr r' hr'
  exact dateLe_trans_lt
    (dateLe_of_not_lt (hbound s rfl hsim r hr))
    (simRows_mem_after s (g s) (hg s) sims hpos r' hr')

theorem rowLt_date_ne {a b : Row} (h : rowLt a b) : a.date ≠ b.date := by
  intro he
  have h' : dateLt a.date b.date := h
  rw [he] at h'
  exact dateLt_irrefl _ h'

theorem mergeInto_dates (arr : List Row) (dt : Date) (k : String)
    (v : Option ℚ) :
    (mergeInto arr dt k v).map Row.date =
      if dt ∈ arr.map Row.date then arr.map Row.date
      else arr.map Row.date ++ [dt] := by
  induction arr with
  | nil => simp [mergeInto]
  | cons r rs ih =>
    simp only [mergeInto]
    by_cases hd : r.date = dt
    · rw [if_pos hd]
      simp [setField, hd]
    · rw [if_neg hd]
      simp only [List.map_cons, ih, List.mem_cons]
      by_cases hmem : dt ∈ rs.map Row.date
      · rw [if_pos hmem, if_pos (Or.inr hmem)]
      · rw [if_neg hmem, if_neg ?_]
        · simp
        · rintro (he | hmem')
          · exact hd he.symm
          · exact hmem hmem'

theorem nodup_extend {l : List Date} (h : l.Pairwise (· ≠ ·)) (dt : Date) :
    (if dt ∈ l then l else l ++ [dt]).Pairwise (· ≠ ·) := by
  by_cases hmem : dt ∈ l
  · rwa [if_pos hmem]
  · rw [if_neg hmem]
    rw [List.pairwise_append]
    exact ⟨h, List.pairwise_singleton _ _, fun a ha b hb => by
      rcases List.mem_singleton.1 hb with rfl
      intro he
      exact hmem (he ▸ ha)⟩

theorem mergeInto_datesNodup {arr : List Row} (h : datesNodup arr)
    (dt : Date) (k : String) (v : Option ℚ) :
    datesNodup (mergeInto arr dt k v) := by
  unfold datesNodup
  rw [mergeInto_dates]
  exact nodup_extend h dt

theorem foldl_preserve {α β : Type} (P : α → Prop) (f : α → β → α)
    (hf : ∀ a b, P a → P (f a b)) :
    ∀ (l : List β) (a : α), P a → P (l.foldl f a) := by
  intro l
  induction l with
  | nil => intro a ha; exact ha
  | cons b l ih => intro a ha; exact ih (f a b) (hf a b ha)

theorem applyAgentSteps_datesNodup (s : Date) (key : String)
    (valueAt : Nat → Option (Option ℚ)) (H : Nat) {table : List Row}
    (h : datesNodup table) :
    datesNodup (applyAgentSteps s key valueAt H table) := by
  unfold applyAgentSteps
  refine foldl_preserve datesNodup _ ?_ _ _ h
  intro acc k hacc
  rcases valueAt k with _ | v
  · exact hacc
  · exact mergeInto_datesNodup hacc _ _ _

theorem applyAgents_datesNodup (s : Date)
    (valueOf : AgentResult → Nat → Option (Option ℚ))
    (ags : List AgentResult) {table : List Row} (h : datesNodup table) :
    datesNodup (applyAgents s valueOf ags table) := by
  unfold applyAgents
  refine foldl_preserve datesNodup _ ?_ _ _ h
  intro acc a hacc
  by_cases he : a.stress_path.isEmpty
  · rwa [if_pos he]
  · rw [if_neg he]
    exact applyAgentSteps_datesNodup _ _ _ _ hacc

theorem agentOverlay_datesNodup (sd : Option Date)
    (valueOf : AgentResult → Nat → Option (Option ℚ))
    (ag : Option (List AgentResult)) {table : List Row}
    (h : datesNodup table) :
    datesNodup (agentOverlay sd valueOf ag table) := by
  rcases sd with _ | s
  · exact h
  rcases ag with _ | l
  · exact h
  show datesNodup (if l.isEmpty then table else applyAgents s valueOf l table)
  by_cases he : l.isEmpty
  · rwa [if_pos he]
  · rw [if_neg he]
    exact applyAgents_datesNodup s valueOf l h

theorem sortRows_pairwise_rowLt {l : List Row} (h : datesNodup l) :
    (sortRows l).Pairwise rowLt := by
  have hsorted : (sortRows l).Pairwise rowLe :=
    List.sorted_insertionSort rowLe l
  have hperm : (sortRows l).Perm l := List.perm_insertionSort rowLe l
  have hmap : ((sortRows l).map Row.date).Perm (l.map Row.date) :=
    hperm.map Row.date
  have hne : ((sortRows l).map Row.date).Pairwise (· ≠ ·) :=
    (List.Perm.pairwise_iff (fun h => h.symm) hmap).2 h
  have hne' : (sortRows l).Pairwise fun a b => a.date ≠ b.date :=
    List.pairwise_map.1 hne
  exact (hsorted.and hne').imp fun hab =>
    dateLt_of_le_of_ne hab.1 hab.2

/-- Full pipeline of one merged table: trimmed history, sim overlay rows,
agent merge, final sort — yields strictly increasing dates. -/
theorem pipeline_pairwise (hist : List Row) (hh : hist.Pairwise rowLt)
    (sims : List StepData) (hst : sims.Pairwise (fun a b => a.step < b.step))
    (hpos : ∀ st ∈ sims, 1 ≤ st.step) (sd : Option Date)
    (hbound : ∀ s, sd = some s → sims ≠ [] →
      ∀ r ∈ hist, ¬ dateLt s r.date)
    (g : Date → StepData → Row)
    (hg : ∀ s st, (g s st).date = addMonthsEnd s st.step)
    (valueOf : AgentResult → Nat → Option (Option ℚ))
    (ag : Option (List AgentResult)) :
    (sortRows (agentOverlay sd valueOf ag
      (hist ++ simOverlay sd sims g))).Pairwise rowLt := by
  apply sortRows_pairwise_rowLt
  apply agentOverlay_datesNodup
  have hpw := pre_sort_pairwise hist hh sims hst hpos sd hbound g hg
  unfold datesNodup
  exact List.pairwise_map.2 (hpw.imp fun hab => rowLt_date_ne hab)

theorem hasOverlay_of_sims_ne {sims : List StepData}
    (ag : Option (List AgentResult)) (h : sims ≠ []) :
    hasOverlay sims ag = true := by
  unfold hasOverlay
  have : sims.isEmpty = false := by simpa [List.isEmpty_iff] using h
  rw [this]
  rfl

/-- C1 — counterexample.  The claim quantifies over every accumulated step
list; the accumulation code performs no step-index validation (see C4), so a
duplicated step 1 is accumulable, and the merge then emits two rows dated
one month after the anchor — the table fails strict date ordering. -/
theorem c1_merge_claim_counterexample :
    ¬ (buildStress none [stepPayload 1, stepPayload 1]
        (some ⟨2024, 6, 30⟩) 120 none false).Pairwise rowLt := by
  decide

/-- C1 — amended.  Provided the historical dates are strictly increasing
and the accumulated steps carry strictly increasing step indices `≥ 1` (as
delivered by a well-behaved stream), each of the four merged tables is
strictly ordered by date with no duplicate dates, for every combination of
history, anchor, step list, agent results and deviation mode; same-date
contributions merge into existing rows rather than duplicating them. -/
theorem c1_merged_tables_strictly_sorted (ts : Option TimeseriesData)
    (sims : List StepData) (sd : Option Date) (hm : Nat)
    (ag : Option (List AgentResult)) (dev : Bool)
    (hts : ∀ t, ts = some t → t.dates.Pairwise dateLt)
    (hst : sims.Pairwise (fun a b => a.step < b.step))
    (hpos : ∀ st ∈ sims, 1 ≤ st.step) :
    (buildStress ts sims sd hm ag dev).Pairwise rowLt ∧
    (buildGrowth ts sims sd hm ag dev).Pairwise rowLt ∧
    (buildCrisis ts sims sd hm ag dev).Pairwise rowLt ∧
    (buildEs95 ts sims sd hm ag dev).Pairwise rowLt := by
  rcases ts with _ | t
  · refine ⟨?_, ?_, ?_, ?_⟩ <;>
      exact pipeline_pairwise [] List.Pairwise.nil sims hst hpos sd
        (fun s _ _ r hr => absurd hr (List.not_mem_nil r)) _
        (fun s st => rfl) _ ag
  · have hpwt : t.dates.Pairwise dateLt := hts t rfl
    have hb : ∀ (mk : Date → Nat → Row), (∀ dt i, (mk dt i).date = dt) →
        ∀ s, sd = some s → sims ≠ [] →
        ∀ r ∈ histRowsBy mk t hm (hasOverlay sims ag) sd,
          ¬ dateLt s r.date := by
      intro mk hmk s hsd hne r hr
      rw [hsd, hasOverlay_of_sims_ne ag hne] at hr
      exact histRowsBy_mem_not_after mk hmk t hm s r hr
    refine ⟨?_, ?_, ?_, ?_⟩
    · exact pipeline_pairwise _
        (histRowsBy_pairwise (mkStressHist t) (fun dt i => rfl) t hm
          (hasOverlay sims ag) sd hpwt)
        sims hst hpos sd (hb (mkStressHist t) (fun dt i => rfl)) _
        (fun s st => rfl) agentStressVal ag
    · exact pipeline_pairwise _
        (histRowsBy_pairwise (mkGrowthHist t) (fun dt i => rfl) t hm
          (hasOverlay sims ag) sd hpwt)
        sims hst hpos sd (hb (mkGrowthHist t) (fun dt i => rfl)) _
        (fun s st => rfl) agentGrowthVal ag
    · exact pipeline_pairwise _
        (histRowsBy_pairwise (mkCrisisHist t) (fun dt i => rfl) t hm
          (hasOverlay sims ag) sd hpwt)
        sims hst hpos sd (hb (mkCrisisHist t) (fun dt i => rfl)) _
        (fun s st => rfl) agentCrisisVal ag
    · exact pipeline_pairwise _
        (histRowsBy_pairwise (mkEs95Hist t) (fun dt i => rfl) t hm
          (hasOverlay sims ag) sd hpwt)
        sims hst hpos sd (hb (mkEs95Hist t) (fun dt i => rfl)) _
        (fun s st => rfl) agentEs95Val ag

/-- A concrete historical series used by the merge-invariant witness. -/
def tsW : TimeseriesData :=
  { dates := [⟨2024, 5, 31⟩, ⟨2024, 6, 30⟩]
    latent_stress := [1, 2]
    latent_growth := some [3, 4]
    crisis_probability := [0, 1] }

/-- A concrete agent result used by the merge-invariant witness. -/
def agW : AgentResult :=
  { agent := "rl"
    stress_path := [5, 6]
    growth_path := [7]
    crisis_prob_path := [1]
    stress_fan := some [some 9, none] }

/-- C1 — witness: the amended merge invariant instantiated with a non-empty
history, one accumulated step, an anchor date, and one agent result. -/
theorem c1_merged_tables_strictly_sorted_witness :
    (buildStress (some tsW) [stepPayload 1] (some ⟨2024, 6, 30⟩) 120
      (some [agW]) false).Pairwise rowLt ∧
    (buildGrowth (some tsW) [stepPayload 1] (some ⟨2024, 6, 30⟩) 120
      (some [agW]) false).Pairwise rowLt ∧
    (buildCrisis (some tsW) [stepPayload 1] (some ⟨2024, 6, 30⟩) 120
      (some [agW]) false).Pairwise rowLt ∧
    (buildEs95 (some tsW) [stepPayload 1] (some ⟨2024, 6, 30⟩) 120
      (some [agW]) false).Pairwise rowLt :=
  c1_merged_tables_strictly_sorted (some tsW) [stepPayload 1]
    (some ⟨2024, 6, 30⟩) 120 (some [agW]) false
    (fun t ht => by injection ht with h; subst h; decide)
    (by decide) (by decide)

/-- C8 — witness: the specification instantiated on a concrete sorted
five-date list with the default target count `8` (short input, returned
unchanged and containing its endpoints). -/
theorem c8_computeTimeTicks_spec_witness :
    ([⟨2020, 1, 31⟩, ⟨2020, 2, 29⟩, ⟨2020, 3, 31⟩, ⟨2020, 4, 30⟩,
        ⟨2020, 5, 31⟩] : List Date).Pairwise dateLt ∧ 2 ≤ 8 ∧
    (computeTimeTicks [⟨2020, 1, 31⟩, ⟨2020, 2, 29⟩, ⟨2020, 3, 31⟩,
        ⟨2020, 4, 30⟩, ⟨2020, 5, 31⟩] 8).Sublist
      [⟨2020, 1, 31⟩, ⟨2020, 2, 29⟩, ⟨2020, 3, 31⟩, ⟨2020, 4, 30⟩,
        ⟨2020, 5, 31⟩] :=
  ⟨by decide, by decide,
    (c8_computeTimeTicks_spec
      [⟨2020, 1, 31⟩, ⟨2020, 2, 29⟩, ⟨2020, 3, 31⟩, ⟨2020, 4, 30⟩,
        ⟨2020, 5, 31⟩] 8 (by decide) (by decide)).2.1⟩

/-- C10 — witness: the empty step list has no `initial_mu`, and both
deviation references evaluate to `0` with the tables unchanged. -/
theorem c10_missing_initial_mu_zero_reference_witness :
    initialMu [] = none ∧
    (muRef0 (initialMu []) = 0 ∧ muRef2 (initialMu []) = 0 ∧
      buildStress none [] none 0 none true =
        buildStress none [] none 0 none false ∧
      buildGrowth none [] none 0 none true =
        buildGrowth none [] none 0 none false ∧
      buildCrisis none [] none 0 none true =
        buildCrisis none [] none 0 none false ∧
      buildEs95 none [] none 0 none true =
        buildEs95 none [] none 0 none false) :=
  ⟨rfl, c10_missing_initial_mu_zero_reference none [] none 0 none rfl⟩
